import Mathlib

/-!
Shallow embedding of the dithering engine of this repository
(`src/dithering.h`, `src/platform.h`'s dithering translation unit) in Lean 4,
together with theorems settling the specification claims.

Modelling conventions:
* `cv::Vec3b` pixels are triples of `Nat` channel values (0–255); `cv::Vec3f`
  float vectors are triples of `ℚ`.  All float arithmetic of the source is
  modelled exactly over `ℚ`; the few places where the C++ value is irrational
  (non-integer `cv::pow`, `cv::magnitude`, Gaussian-blur coefficients) are
  modelled by documented rational surrogates — no claim below depends on the
  numeric values of those branches.
* `cv::Mat` buffers are row-major `List (List _)` grids.
* The unguarded `palette[0]` access of `findClosestColor` on an empty palette
  is undefined behaviour in C++; it is modelled by `Option` (`none`).
* `generateBayerMatrix` recurses without a decreasing measure in the source
  (`size` that never reaches the base case 2 loops forever); it is modelled
  with explicit fuel, `none` standing for non-termination.
-/

set_option allowUnsafeReducibility true
attribute [semireducible] Rat.add Rat.mul Rat.div Rat.neg Rat.sub Rat.inv
set_option maxRecDepth 100000

namespace Dithering

/-- Clamp a rational to `[lo, hi]`, modelling `std::clamp` / `cv::min`+`cv::max`. -/
def clampQ (x lo hi : ℚ) : ℚ :=
  min (max x lo) hi

/-- Truncation of a nonnegative float to `uchar`, modelling
`static_cast<uchar>` applied to a value already clamped into `[0, 255]`. -/
def truncByte (q : ℚ) : Nat :=
  q.num.toNat / q.den

/-- The floor of a rational, written out as flooring integer division so that
it evaluates by kernel reduction. -/
def qfloor (q : ℚ) : ℤ :=
  Int.fdiv q.num q.den

/-- Round half to even, modelling `cvRound` (used by `Mat::convertTo`). -/
def roundHalfEven (q : ℚ) : ℤ :=
  let f := qfloor q
  let r := q - f
  if r < 1/2 then f
  else if 1/2 < r then f + 1
  else if f % 2 = 0 then f else f + 1

/-- Saturating cast of an integer to a byte, modelling `saturate_cast<uchar>`. -/
def satByte (z : ℤ) : Nat :=
  (min (max z 0) 255).toNat

/-- A `cv::Vec3b` pixel: three byte channels in OpenCV's B,G,R order. -/
structure Pix where
  c0 : Nat
  c1 : Nat
  c2 : Nat
deriving DecidableEq, Repr

/-- A `cv::Vec3f` vector: three rational components modelling floats. -/
structure Vec3 where
  x0 : ℚ
  x1 : ℚ
  x2 : ℚ
deriving DecidableEq, Repr

def Vec3.add (a b : Vec3) : Vec3 :=
  ⟨a.x0 + b.x0, a.x1 + b.x1, a.x2 + b.x2⟩

def Vec3.sub (a b : Vec3) : Vec3 :=
  ⟨a.x0 - b.x0, a.x1 - b.x1, a.x2 - b.x2⟩

/-- Multiply a `cv::Vec3f` by a float scalar. -/
def Vec3.smul (a : Vec3) (s : ℚ) : Vec3 :=
  ⟨a.x0 * s, a.x1 * s, a.x2 * s⟩

/-- The broadcast vector `cv::Vec3f(s)` = `(s, s, s)`. -/
def const3 (s : ℚ) : Vec3 :=
  ⟨s, s, s⟩

def Vec3.zero : Vec3 :=
  ⟨0, 0, 0⟩

/-- `cv::Vec3f(p[0], p[1], p[2])` — promote a byte pixel to a float vector. -/
def pixToVec (p : Pix) : Vec3 :=
  ⟨(p.c0 : ℚ), (p.c1 : ℚ), (p.c2 : ℚ)⟩

/-- Component-wise `std::clamp(v, 0.0f, 255.0f)`. -/
def clamp3 (v : Vec3) : Vec3 :=
  ⟨clampQ v.x0 0 255, clampQ v.x1 0 255, clampQ v.x2 0 255⟩

/-- Component-wise `static_cast<uchar>` of a clamped float vector. -/
def vecToPix (v : Vec3) : Pix :=
  ⟨truncByte v.x0, truncByte v.x1, truncByte v.x2⟩

/-- The L1 magnitude of a float vector (used to measure diffused error). -/
def l1 (v : Vec3) : ℚ :=
  |v.x0| + |v.x1| + |v.x2|

/-- Row-major 2D buffer, modelling `cv::Mat`. -/
abbrev Grid (α : Type) : Type :=
  List (List α)

/-- A 3-channel byte image (`cv::Mat` of `CV_8UC3`). -/
abbrev Image : Type :=
  Grid Pix

/-- Replace the element at an index, leaving the list unchanged out of range. -/
def listModify {α : Type} : List α → Nat → (α → α) → List α
  | [], _, _ => []
  | a :: as, 0, f => f a :: as
  | a :: as, n+1, f => a :: listModify as n f

/-- Read `m.at(y, x)` with a default for out-of-range indices. -/
def gget {α : Type} (g : Grid α) (y x : Nat) (d : α) : α :=
  (((g.get? y).getD []).get? x).getD d

/-- Write `m.at(y, x) = f (m.at(y, x))`. -/
def gmodify {α : Type} (g : Grid α) (y x : Nat) (f : α → α) : Grid α :=
  listModify g y (fun row => listModify row x f)

/-- `cv::Mat::zeros(rows, cols)`-style constant grid. -/
def mkGrid {α : Type} (rows cols : Nat) (v : α) : Grid α :=
  List.replicate rows (List.replicate cols v)

/-- `input.rows`. -/
def gridRows {α : Type} (g : Grid α) : Nat :=
  g.length

/-- `input.cols` (all buffers the engine builds are rectangular). -/
def gridCols {α : Type} (g : Grid α) : Nat :=
  ((g.get? 0).getD []).length

/-- Squared Euclidean RGB distance of `findClosestColor`.  The source computes
it with `std::pow(Δ, 2)` on integer-valued floats; every value involved is an
integer below 2^24, so float arithmetic is exact and `ℤ` models it faithfully. -/
def colorDist (c p : Pix) : ℤ :=
  ((c.c0 : ℤ) - p.c0) ^ 2 + ((c.c1 : ℤ) - p.c1) ^ 2 + ((c.c2 : ℤ) - p.c2) ^ 2

/-- Stands for the `FLT_MAX` initial `minDist`: strictly larger than every
possible `colorDist` (which is at most `3 * 255²`). -/
def fltMaxDist : ℤ :=
  3 * 255 ^ 2 + 1

/-- The scan loop of `findClosestColor` on the palette `first :: rest`:
`closest` starts at `palette[0]`, `minDist` at `FLT_MAX`, and every entry
(including `palette[0]` itself) is compared with strict `<`, so the first
entry attaining the minimal distance wins. -/
def findClosest1 (color first : Pix) (rest : List Pix) : Pix :=
  ((first :: rest).foldl
    (fun acc p => if colorDist color p < acc.2 then (p, colorDist color p) else acc)
    (first, fltMaxDist)).1

/-- `findClosestColor(color, palette)`.  The source reads `palette[0]`
unguarded; an empty palette is undefined behaviour, modelled as `none`. -/
def findClosestColor (color : Pix) (palette : List Pix) : Option Pix :=
  match palette with
  | [] => none
  | first :: rest => some (findClosest1 color first rest)

/-- The `PaletteMode` enum of `dithering.h`. -/
inductive PaletteMode
  | MONOCHROME
  | GRAYSCALE_4
  | GRAYSCALE_8
  | GRAYSCALE_16
  | CGA
  | EGA
  | VGA
  | GAMEBOY
  | PICO8
  | CUSTOM
deriving DecidableEq, Repr

/-- A gray palette entry `Vec3b(val, val, val)` with `val = i * 255 / (n - 1)`
computed in C++ integer division (truncation). -/
def grayEntry (i denom : Nat) : Pix :=
  ⟨i * 255 / denom, i * 255 / denom, i * 255 / denom⟩

/-- `getPalette(mode)`.  Note: the function takes no custom-palette argument;
`CUSTOM`, `EGA` and `VGA` have no case of their own and fall to the switch's
`default`, which produces the 2-entry monochrome palette. -/
def getPalette (mode : PaletteMode) : List Pix :=
  match mode with
  | .MONOCHROME => [⟨0, 0, 0⟩, ⟨255, 255, 255⟩]
  | .GRAYSCALE_4 => (List.range 4).map (fun i => grayEntry i 3)
  | .GRAYSCALE_8 => (List.range 8).map (fun i => grayEntry i 7)
  | .GRAYSCALE_16 => (List.range 16).map (fun i => grayEntry i 15)
  | .CGA =>
      [⟨0, 0, 0⟩, ⟨170, 0, 0⟩, ⟨0, 170, 0⟩, ⟨170, 170, 0⟩,
       ⟨0, 0, 170⟩, ⟨170, 0, 170⟩, ⟨0, 85, 170⟩, ⟨170, 170, 170⟩,
       ⟨85, 85, 85⟩, ⟨255, 85, 85⟩, ⟨85, 255, 85⟩, ⟨255, 255, 85⟩,
       ⟨85, 85, 255⟩, ⟨255, 85, 255⟩, ⟨85, 255, 255⟩, ⟨255, 255, 255⟩]
  | .GAMEBOY =>
      [⟨15, 56, 15⟩, ⟨48, 98, 48⟩, ⟨139, 172, 15⟩, ⟨155, 188, 15⟩]
  | .PICO8 =>
      [⟨0, 0, 0⟩, ⟨95, 87, 79⟩, ⟨255, 0, 77⟩, ⟨171, 82, 54⟩,
       ⟨255, 163, 0⟩, ⟨255, 236, 39⟩, ⟨0, 228, 54⟩, ⟨41, 173, 255⟩,
       ⟨131, 118, 156⟩, ⟨255, 119, 168⟩, ⟨255, 204, 170⟩, ⟨41, 54, 111⟩,
       ⟨0, 87, 132⟩, ⟨194, 195, 199⟩, ⟨255, 241, 232⟩, ⟨242, 233, 222⟩]
  | .EGA => [⟨0, 0, 0⟩, ⟨255, 255, 255⟩]
  | .VGA => [⟨0, 0, 0⟩, ⟨255, 255, 255⟩]
  | .CUSTOM => [⟨0, 0, 0⟩, ⟨255, 255, 255⟩]

/-- The `Algorithm` enum of `dithering.h`. -/
inductive Algorithm
  | FLOYD_STEINBERG
  | ATKINSON
  | JARVIS_JUDICE_NINKE
  | STUCKI
  | BURKES
  | SIERRA
  | SIERRA_TWO_ROW
  | SIERRA_LITE
  | ORDERED_BAYER_2X2
  | ORDERED_BAYER_4X4
  | ORDERED_BAYER_8X8
  | ORDERED_BAYER_16X16
  | BLUE_NOISE
  | WHITE_NOISE
  | RANDOM_DITHER
  | PATTERN_DITHER
  | DOT_DIFFUSION
  | RIEMERSMA
  | GRADIENT_BASED
  | VARIABLE_ERROR_DIFFUSION
  | OSTROMOUKHOV
  | FAN
  | SHIAU_FAN
  | STEVENPIGEON
deriving DecidableEq, Repr

/-- The `Parameters` struct of `dithering.h`.  Floats are modelled as `ℚ`
(`serpentine` really is a float in the source, compared against `0.5f`);
`bayerSize` is an `int` the engine only ever uses nonnegatively, modelled as
`Nat`; `seed` is an `unsigned int`, reduced mod 2^32 where it is consumed. -/
structure Parameters where
  algorithm : Algorithm := .FLOYD_STEINBERG
  paletteMode : PaletteMode := .MONOCHROME
  customPalette : List Pix := []
  strength : ℚ := 1
  serpentine : ℚ := 1
  colorization : ℚ := 0
  levels : ℤ := 2
  gamma : ℚ := 1
  contrast : ℚ := 1
  brightness : ℚ := 0
  saturation : ℚ := 1
  bayerSize : Nat := 8
  seed : Nat := 42
  useBlueNoise : Bool := true
  ditherScale : ℚ := 1

/-- 2^32, the modulus of the `std::mt19937` word arithmetic. -/
def mtMod : Nat :=
  4294967296

/-- One step of `std::mt19937` state seeding:
`x_i = 1812433253 * (x_{i-1} xor (x_{i-1} >> 30)) + i (mod 2^32)`. -/
def mtSeedStep (prev i : Nat) : Nat :=
  (1812433253 * (prev ^^^ (prev >>> 30)) + i) % mtMod

/-- The 624-word seeded state of `std::mt19937(seed)`. -/
def mtSeedWords (seed : Nat) : List Nat :=
  (((List.range 623).map (· + 1)).foldl
    (fun acc i =>
      let w := mtSeedStep acc.2 i
      (acc.1 ++ [w], w))
    ([seed % mtMod], seed % mtMod)).1

/-- The state of a `std::mt19937` engine: 624 words plus the read position. -/
structure MTState where
  words : List Nat
  idx : Nat
deriving Repr

/-- A freshly seeded engine; the first draw triggers a generation pass. -/
def mtInit (seed : Nat) : MTState :=
  ⟨mtSeedWords seed, 624⟩

/-- The in-place generation pass of `std::mt19937` (the "twist"): word `i` is
rebuilt from the current array, so indices below `i` refer to already-updated
words, as in the reference implementation. -/
def mtTwist (ws : List Nat) : List Nat :=
  (List.range 624).foldl
    (fun w i =>
      let y := ((w.get? i).getD 0 &&& 2147483648) + ((w.get? ((i + 1) % 624)).getD 0 &&& 2147483647)
      let v := (w.get? ((i + 397) % 624)).getD 0 ^^^ (y >>> 1) ^^^ (if y % 2 = 1 then 2567483615 else 0)
      listModify w i (fun _ => v))
    ws

/-- The output tempering of `std::mt19937`. -/
def mtTemper (y : Nat) : Nat :=
  let y1 := y ^^^ (y >>> 11)
  let y2 := y1 ^^^ ((y1 <<< 7) &&& 2636928640)
  let y3 := y2 ^^^ ((y2 <<< 15) &&& 4022730752)
  y3 ^^^ (y3 >>> 18)

/-- Draw one 32-bit word from the engine. -/
def mtNext (s : MTState) : Nat × MTState :=
  if s.idx ≥ 624 then
    let ws := mtTwist s.words
    (mtTemper ((ws.get? 0).getD 0), ⟨ws, 1⟩)
  else
    (mtTemper ((s.words.get? s.idx).getD 0), ⟨s.words, s.idx + 1⟩)

/-- One draw of `std::uniform_real_distribution<float>(0,1)` on the engine,
modelled (as in libstdc++'s `generate_canonical` for a 24-bit mantissa) as a
single 32-bit draw scaled into `[0,1)`; the exact float value is rational. -/
def mtDraw01 (s : MTState) : ℚ × MTState :=
  let r := mtNext s
  ((r.1 : ℚ) / (mtMod : ℚ), r.2)

/-- One draw of `std::uniform_real_distribution<float>(a,b)`:
`a + (b - a) * u` with `u` the canonical draw. -/
def mtDrawRange (a b : ℚ) (s : MTState) : ℚ × MTState :=
  let r := mtDraw01 s
  (a + (b - a) * r.1, r.2)

/-- The doubling step of `generateBayerMatrix`: replicate each entry of the
half-size matrix into the four quadrants with the additive offsets
`(0, 2, 3, 1)`, then divide the whole matrix by `size * size`. -/
def bayerDouble (size : Nat) (smaller : Grid ℚ) : Grid ℚ :=
  let halfSize := size / 2
  let filled :=
    (List.range halfSize).foldl
      (fun g y =>
        (List.range halfSize).foldl
          (fun g x =>
            let val := gget smaller y x 0
            let g := gmodify g y x (fun _ => 4 * val + 0)
            let g := gmodify g y (x + halfSize) (fun _ => 4 * val + 2)
            let g := gmodify g (y + halfSize) x (fun _ => 4 * val + 3)
            gmodify g (y + halfSize) (x + halfSize) (fun _ => 4 * val + 1))
          g)
      (mkGrid size size (0 : ℚ))
  filled.map (List.map (· / ((size : ℚ) * size)))

/-- The recursion of `generateBayerMatrix`, with explicit fuel: a `size` whose
repeated halving never reaches the base case 2 recurses forever in the C++
source, which is modelled by running out of fuel (`none`). -/
def bayerAux : Nat → Nat → Option (Grid ℚ)
  | 0, _ => none
  | fuel + 1, size =>
      if size = 2 then some [[0 / 4, 2 / 4], [3 / 4, 1 / 4]]
      else
        match bayerAux fuel (size / 2) with
        | none => none
        | some smaller => some (bayerDouble size smaller)

/-- `generateBayerMatrix(size)`.  The fuel `size + 1` covers every terminating
halving chain (each recursive call strictly decreases a positive size). -/
def generateBayerMatrix (size : Nat) : Option (Grid ℚ) :=
  bayerAux (size + 1) size

/-- Reflected border indexing (`BORDER_REFLECT_101`, OpenCV's default) used by
the smoothing and Sobel kernels. -/
def reflect101 (i : ℤ) (n : Nat) : Nat :=
  if i < 0 then (-i).toNat % n
  else if i ≥ n then (2 * n - 2 - i.toNat) % n
  else i.toNat

/-- Modelled from the spec: the small Gaussian smoothing kernel (radius 2,
sigma ≈ 1) that `cv::GaussianBlur(noise, noise, Size(5,5), 1.0)` applies.  The
exact float coefficients of OpenCV's sampled Gaussian are irrational; they are
modelled by the binomial weights `[1,4,6,4,1]/16`, which no claim's numeric
content depends on. -/
def gauss5 : List ℚ :=
  [1 / 16, 4 / 16, 6 / 16, 4 / 16, 1 / 16]

/-- Separable 5×5 smoothing of a square grid with `gauss5` weights and
reflected borders. -/
def blurGrid (g : Grid ℚ) (n : Nat) : Grid ℚ :=
  (List.range n).map (fun y =>
    (List.range n).map (fun x =>
      (((List.range 5).map (fun (ky : Nat) =>
        (((List.range 5).map (fun (kx : Nat) =>
          gget g (reflect101 ((y : ℤ) + (ky : ℤ) - 2) n) (reflect101 ((x : ℤ) + (kx : ℤ) - 2) n) 0
            * ((gauss5.get? kx).getD 0))).foldl (· + ·) 0)
          * ((gauss5.get? ky).getD 0))).foldl (· + ·) 0)))

/-- `cv::normalize(g, g, 0, 1, NORM_MINMAX)`: affinely rescale so the minimum
maps to 0 and the maximum to 1 (constant grids map to 0). -/
def minmaxNormalize (g : Grid ℚ) : Grid ℚ :=
  let vals := g.flatten
  match vals with
  | [] => g
  | v :: vs =>
      let lo := vs.foldl min v
      let hi := vs.foldl max v
      if hi = lo then g.map (List.map (fun _ => 0))
      else g.map (List.map (fun x => (x - lo) / (hi - lo)))

/-- `generateBlueNoiseTexture(size, seed)`: seeded white noise filled in
row-major order, Gaussian smoothing, then min-max normalization. -/
def generateBlueNoiseTexture (size : Nat) (seed : Nat) : Grid ℚ :=
  let noise :=
    ((List.range size).foldl
      (fun acc _ =>
        let row :=
          (List.range size).foldl
            (fun racc _ =>
              let d := mtDraw01 racc.2
              (racc.1 ++ [d.1], d.2))
            ([], acc.2)
        (acc.1 ++ [row.1], row.2))
      (([] : Grid ℚ), mtInit seed)).1
  minmaxNormalize (blurGrid noise size)

/-- Fold a list, collecting one output value per element while threading a
state — the shape shared by every pixel-scan loop of the engine. -/
def foldAppend {γ α σ : Type} (g : γ → σ → α × σ) (l : List γ) (a : List α × σ) : List α × σ :=
  l.foldl
    (fun acc c =>
      let r := g c acc.2
      (acc.1 ++ [r.1], r.2))
    a

/-- One row of the common pixel scan: columns left to right or (when `rev`)
right to left, in which case the emitted pixels are placed back in positional
order. -/
def scanRow {σ : Type} (step : Nat → Nat → σ → Pix × σ) (cols : Nat)
    (rev : Bool) (y : Nat) (s : σ) : List Pix × σ :=
  let xs := if rev then (List.range cols).reverse else List.range cols
  let inner := foldAppend (fun x st => step x y st) xs ([], s)
  ((if rev then inner.1.reverse else inner.1), inner.2)

/-- The common scan of the dithering algorithms: rows top to bottom, each row
scanned by `scanRow`.  Each algorithm's per-pixel work is the `step` function,
threading its own state `σ`.  (In the source each algorithm writes
`result.at(y, x)` exactly once, after its only read of that cell, so building
the output positionally is faithful.) -/
def scanRows {σ : Type} (step : Nat → Nat → σ → Pix × σ) (rows cols : Nat)
    (rowRev : Nat → Bool) (s0 : σ) : Image × σ :=
  foldAppend (fun y s => scanRow step cols (rowRev y) y s) (List.range rows) ([], s0)

/-- `diffuseError(errors, x, y, error, offsets, weights, strength, serpentine)`:
serpentine on an odd row flips the horizontal offsets; each in-bounds target
accumulates `error * weight * strength`, out-of-bounds targets are dropped.
The source iterates index `i` over `offsets` reading `weights[i]`; the paired
recursion below is the same loop for the equal-length lists every call passes. -/
def diffuseError (errors : Grid Vec3) (x y : Nat) (error : Vec3) :
    List (ℤ × ℤ) → List ℚ → ℚ → Bool → Grid Vec3
  | (dx, dy) :: offs, w :: ws, strength, serp =>
      let direction : ℤ := if serp && y % 2 = 1 then -1 else 1
      let nx := (x : ℤ) + dx * direction
      let ny := (y : ℤ) + dy
      let errors' :=
        if 0 ≤ nx ∧ nx < (gridCols errors : ℤ) ∧ 0 ≤ ny ∧ ny < (gridRows errors : ℤ) then
          gmodify errors ny.toNat nx.toNat (fun v => v.add (error.smul (w * strength)))
        else errors
      diffuseError errors' x y error offs ws strength serp
  | _, _, _, _ => errors

/-- The total L1 amount a `diffuseError` call adds to the accumulator grid:
the in-bounds targets receive `|error_c| * |weight * strength|` per channel;
dropped out-of-bounds targets contribute nothing. -/
def injectedL1 (errors : Grid Vec3) (x y : Nat) (error : Vec3) :
    List (ℤ × ℤ) → List ℚ → ℚ → Bool → ℚ
  | (dx, dy) :: offs, w :: ws, strength, serp =>
      let direction : ℤ := if serp && y % 2 = 1 then -1 else 1
      let nx := (x : ℤ) + dx * direction
      let ny := (y : ℤ) + dy
      (if 0 ≤ nx ∧ nx < (gridCols errors : ℤ) ∧ 0 ≤ ny ∧ ny < (gridRows errors : ℤ) then
        |w * strength| * l1 error
      else 0) + injectedL1 errors x y error offs ws strength serp
  | _, _, _, _ => 0

/-- Natural-number power on `ℚ`, written out so it evaluates by reduction. -/
def qpow (x : ℚ) : Nat → ℚ
  | 0 => 1
  | n + 1 => x * qpow x n

/-- Integer power on `ℚ` (negative exponents via the field inverse). -/
def zpowQ (x : ℚ) (n : ℤ) : ℚ :=
  if 0 ≤ n then qpow x n.toNat else (qpow x (-n).toNat)⁻¹

/-- Models `cv::pow(src, p)` on `CV_32F` data.  For an integer `p` OpenCV
computes the signed integer power directly; for a non-integer `p` it computes
`pow(|x|, p)` (the absolute value of the base is used), which is irrational in
general and is modelled here by `|x|` raised to the nearest integer exponent —
no claim below depends on the numeric value of that branch, only on which
argument reaches the power step. -/
def cvPow (x p : ℚ) : ℚ :=
  if p.den = 1 then zpowQ x p.num else qpow |x| (roundHalfEven p).toNat

/-- Step 1 of `preprocessImage`: `convertTo(CV_32FC3, 1.0/255.0)`. -/
def ppNormalize (p : Pix) : Vec3 :=
  ⟨(p.c0 : ℚ) / 255, (p.c1 : ℚ) / 255, (p.c2 : ℚ) / 255⟩

/-- Step 2 of `preprocessImage`: `processed * contrast + brightness`,
independently per channel.  Note the result is not clamped. -/
def ppContrastBrightness (params : Parameters) (v : Vec3) : Vec3 :=
  ⟨v.x0 * params.contrast + params.brightness,
   v.x1 * params.contrast + params.brightness,
   v.x2 * params.contrast + params.brightness⟩

/-- Step 3 of `preprocessImage`: `cv::pow(processed, gamma, processed)` when
`gamma ≠ 1`, applied directly to the contrast/brightness output. -/
def ppGamma (params : Parameters) (v : Vec3) : Vec3 :=
  if params.gamma ≠ 1 then
    ⟨cvPow v.x0 params.gamma, cvPow v.x1 params.gamma, cvPow v.x2 params.gamma⟩
  else v

/-- Models `cv::cvtColor(..., COLOR_BGR2HSV)` on float data: `V = max`,
`S = (V - min)/V` (0 when `V = 0`), `H` in degrees by the usual sector
formula (0 when the pixel is gray). -/
def bgr2hsv (c : Vec3) : Vec3 :=
  let b := c.x0
  let g := c.x1
  let r := c.x2
  let v := max r (max g b)
  let m := min r (min g b)
  let s := if v = 0 then 0 else (v - m) / v
  let d := v - m
  let h0 :=
    if d = 0 then 0
    else if v = r then 60 * (g - b) / d
    else if v = g then 120 + 60 * (b - r) / d
    else 240 + 60 * (r - g) / d
  let h := if h0 < 0 then h0 + 360 else h0
  ⟨h, s, v⟩

/-- Models `cv::cvtColor(..., COLOR_HSV2BGR)` on float data (standard sector
interpolation). -/
def hsv2bgr (c : Vec3) : Vec3 :=
  let h := c.x0
  let s := c.x1
  let v := c.x2
  let hh := h / 60
  let sector := (qfloor hh % 6).toNat
  let f := hh - qfloor hh
  let p := v * (1 - s)
  let q := v * (1 - s * f)
  let t := v * (1 - s * (1 - f))
  match sector with
  | 0 => ⟨p, t, v⟩
  | 1 => ⟨p, v, q⟩
  | 2 => ⟨t, v, p⟩
  | 3 => ⟨v, q, p⟩
  | 4 => ⟨v, p, t⟩
  | _ => ⟨q, p, v⟩

/-- Step 4 of `preprocessImage`: when `saturation ≠ 1`, convert to HSV, scale
the S channel, convert back. -/
def ppSaturation (params : Parameters) (v : Vec3) : Vec3 :=
  if params.saturation ≠ 1 then
    let hsv := bgr2hsv v
    hsv2bgr ⟨hsv.x0, hsv.x1 * params.saturation, hsv.x2⟩
  else v

/-- Step 5 of `preprocessImage`: clamp to `[0,1]`, `convertTo(CV_8UC3, 255)`
(scale, `cvRound`, saturating byte cast). -/
def ppFinalize (v : Vec3) : Pix :=
  ⟨satByte (roundHalfEven (clampQ v.x0 0 1 * 255)),
   satByte (roundHalfEven (clampQ v.x1 0 1 * 255)),
   satByte (roundHalfEven (clampQ v.x2 0 1 * 255))⟩

/-- `preprocessImage(input, params)`: the five per-pixel stages in source
order. -/
def preprocessImage (input : Image) (params : Parameters) : Image :=
  input.map (List.map (fun p =>
    ppFinalize (ppSaturation params (ppGamma params (ppContrastBrightness params (ppNormalize p))))))

/-- Follows the spec's words for claim C7 (a comparison pipeline, not a
translation of the source): the gamma power is applied only after the
contrast/brightness output has been clamped to `≥ 0`. -/
def ppGammaClampFirst (params : Parameters) (v : Vec3) : Vec3 :=
  if params.gamma ≠ 1 then
    ⟨cvPow (max v.x0 0) params.gamma, cvPow (max v.x1 0) params.gamma,
     cvPow (max v.x2 0) params.gamma⟩
  else v

/-- The preprocessing pipeline as the spec describes it for claim C7, with the
clamp-to-nonnegative step before the gamma power. -/
def preprocessImageClampFirst (input : Image) (params : Parameters) : Image :=
  input.map (List.map (fun p =>
    ppFinalize (ppSaturation params (ppGammaClampFirst params (ppContrastBrightness params (ppNormalize p))))))

/-- `params.serpentine > 0.5f` — the source stores the serpentine flag as a
float and thresholds it. -/
def serpOn (params : Parameters) : Bool :=
  decide ((1 : ℚ) / 2 < params.serpentine)

/-- The per-call quantizer: `none` when the palette is empty (in which case
every per-pixel `findClosestColor` call would hit the unguarded `palette[0]`),
otherwise the total nearest-color map of `findClosest1`. -/
def paletteQuant (palette : List Pix) : Option (Pix → Pix) :=
  match palette with
  | [] => none
  | first :: rest => some (fun c => findClosest1 c first rest)

/-- The error-diffusion accumulator state: the `errors` grid of the source
plus two bookkeeping sums — the total L1 quantization error generated at
pixels and the total L1 error injected into the grid (claim C8). -/
structure EDState where
  errs : Grid Vec3
  gen : ℚ
  inj : ℚ

/-- The zero accumulator (`cv::Mat::zeros(rows, cols, CV_32FC3)`). -/
def edInit (input : Image) : EDState :=
  ⟨mkGrid (gridRows input) (gridCols input) Vec3.zero, 0, 0⟩

/-- The body of the error-diffusion pixel loop shared verbatim by the
fixed-kernel algorithms: add accumulated error to the stored pixel, clamp,
byte-truncate, quantize, write the quantized pixel, and diffuse the
`strength`-scaled quantization error.  (`result.at(y, x)` is read only before
its single write, so the stored pixel is the input pixel.) -/
def edStep (quant : Pix → Pix) (offsets : List (ℤ × ℤ)) (weights : List ℚ)
    (strengthAt : Nat → Nat → ℚ) (serp : Bool) (input : Image) (x y : Nat)
    (s : EDState) : Pix × EDState :=
  let oldPixel := gget input y x ⟨0, 0, 0⟩
  let errorVal := gget s.errs y x Vec3.zero
  let newPixelF := clamp3 ((pixToVec oldPixel).add errorVal)
  let newPixel := vecToPix newPixelF
  let quantized := quant newPixel
  let quantError := newPixelF.sub (pixToVec quantized)
  let strength := strengthAt x y
  (quantized,
   ⟨diffuseError s.errs x y quantError offsets weights strength serp,
    s.gen + l1 quantError,
    s.inj + injectedL1 s.errs x y quantError offsets weights strength serp⟩)

def fsOffsets : List (ℤ × ℤ) :=
  [(1, 0), (-1, 1), (0, 1), (1, 1)]

def fsWeights : List ℚ :=
  [7 / 16, 3 / 16, 5 / 16, 1 / 16]

/-- The full Floyd-Steinberg scan (result image plus final accumulator
state); the only algorithm that honours the serpentine flag. -/
def fsScanFull (input : Image) (params : Parameters) : Option (Image × EDState) :=
  (paletteQuant (getPalette params.paletteMode)).map (fun quant =>
    scanRows (edStep quant fsOffsets fsWeights (fun _ _ => params.strength) (serpOn params) input)
      (gridRows input) (gridCols input)
      (fun y => serpOn params && y % 2 = 1) (edInit input))

/-- `floydSteinberg(input, params)`. -/
def floydSteinberg (input : Image) (params : Parameters) : Option Image :=
  (fsScanFull input params).map (·.1)

/-- Total L1 quantization error generated at the pixels of a Floyd-Steinberg
scan (0 when the palette is empty and the call cannot run). -/
def fsTotalGenerated (input : Image) (params : Parameters) : ℚ :=
  ((fsScanFull input params).map (fun r => r.2.gen)).getD 0

/-- Total L1 error injected into the accumulator grid by a Floyd-Steinberg
scan (0 when the palette is empty and the call cannot run). -/
def fsTotalInjected (input : Image) (params : Parameters) : ℚ :=
  ((fsScanFull input params).map (fun r => r.2.inj)).getD 0

/-- The shared non-serpentine fixed-kernel error-diffusion runner (the source
repeats this loop verbatim in each algorithm, passing `false` for serpentine). -/
def runKernelED (input : Image) (params : Parameters)
    (offsets : List (ℤ × ℤ)) (weights : List ℚ) : Option Image :=
  (paletteQuant (getPalette params.paletteMode)).map (fun quant =>
    (scanRows (edStep quant offsets weights (fun _ _ => params.strength) false input)
      (gridRows input) (gridCols input) (fun _ => false) (edInit input)).1)

def atkinson (input : Image) (params : Parameters) : Option Image :=
  runKernelED input params
    [(1, 0), (2, 0), (-1, 1), (0, 1), (1, 1), (0, 2)]
    (List.replicate 6 (1 / 8))

def jarvisJudiceNinke (input : Image) (params : Parameters) : Option Image :=
  runKernelED input params
    [(1, 0), (2, 0), (-2, 1), (-1, 1), (0, 1), (1, 1), (2, 1),
     (-2, 2), (-1, 2), (0, 2), (1, 2), (2, 2)]
    [7 / 48, 5 / 48, 3 / 48, 5 / 48, 7 / 48, 5 / 48, 3 / 48,
     1 / 48, 3 / 48, 5 / 48, 3 / 48, 1 / 48]

def stucki (input : Image) (params : Parameters) : Option Image :=
  runKernelED input params
    [(1, 0), (2, 0), (-2, 1), (-1, 1), (0, 1), (1, 1), (2, 1),
     (-2, 2), (-1, 2), (0, 2), (1, 2), (2, 2)]
    [8 / 42, 4 / 42, 2 / 42, 4 / 42, 8 / 42, 4 / 42, 2 / 42,
     1 / 42, 2 / 42, 4 / 42, 2 / 42, 1 / 42]

def burkes (input : Image) (params : Parameters) : Option Image :=
  runKernelED input params
    [(1, 0), (2, 0), (-2, 1), (-1, 1), (0, 1), (1, 1), (2, 1)]
    [8 / 32, 4 / 32, 2 / 32, 4 / 32, 8 / 32, 4 / 32, 2 / 32]

def sierra (input : Image) (params : Parameters) : Option Image :=
  runKernelED input params
    [(1, 0), (2, 0), (-2, 1), (-1, 1), (0, 1), (1, 1), (2, 1),
     (-1, 2), (0, 2), (1, 2)]
    [5 / 32, 3 / 32, 2 / 32, 4 / 32, 5 / 32, 4 / 32, 2 / 32,
     2 / 32, 3 / 32, 2 / 32]

def sierraTwo (input : Image) (params : Parameters) : Option Image :=
  runKernelED input params
    [(1, 0), (2, 0), (-2, 1), (-1, 1), (0, 1), (1, 1), (2, 1)]
    [4 / 16, 3 / 16, 1 / 16, 2 / 16, 3 / 16, 2 / 16, 1 / 16]

def sierraLite (input : Image) (params : Parameters) : Option Image :=
  runKernelED input params
    [(1, 0), (-1, 1), (0, 1)]
    [2 / 4, 1 / 4, 1 / 4]

def fan (input : Image) (params : Parameters) : Option Image :=
  runKernelED input params
    [(1, 0), (0, 1), (1, 1), (-1, 1)]
    [7 / 16, 1 / 16, 5 / 16, 3 / 16]

def shiauFan (input : Image) (params : Parameters) : Option Image :=
  runKernelED input params
    [(1, 0), (2, 0), (-2, 1), (-1, 1), (0, 1), (1, 1), (2, 1)]
    [4 / 16, 1 / 16, 1 / 16, 1 / 16, 2 / 16, 4 / 16, 2 / 16]

def stevenPigeon (input : Image) (params : Parameters) : Option Image :=
  runKernelED input params
    [(1, 0), (2, 0), (-2, 1), (-1, 1), (0, 1), (1, 1), (2, 1),
     (-1, 2), (0, 2), (1, 2)]
    [2 / 14, 1 / 14, 1 / 14, 2 / 14, 2 / 14, 2 / 14, 1 / 14,
     1 / 14, 1 / 14, 1 / 14]

/-- Models `cv::cvtColor(..., COLOR_BGR2GRAY)` on bytes: the standard
luma weights 0.299/0.587/0.114 with rounding (OpenCV computes them in
fixed point; no claim depends on the exact gray values). -/
def cvtGrayByte (p : Pix) : Nat :=
  satByte (roundHalfEven ((299 / 1000 : ℚ) * p.c2 + (587 / 1000 : ℚ) * p.c1 + (114 / 1000 : ℚ) * p.c0))

/-- A 3×3 convolution at `(y, x)` with reflected borders (the shared shape of
the two Sobel kernels). -/
def conv3 (g : Grid ℚ) (rows cols : Nat) (k : Grid ℚ) (y x : Nat) : ℚ :=
  (((List.range 3).map (fun (ky : Nat) =>
    ((List.range 3).map (fun (kx : Nat) =>
      gget g (reflect101 ((y : ℤ) + (ky : ℤ) - 1) rows) (reflect101 ((x : ℤ) + (kx : ℤ) - 1) cols) 0
        * gget k ky kx 0)).foldl (· + ·) 0)).foldl (· + ·) 0)

def sobelKx : Grid ℚ :=
  [[-1, 0, 1], [-2, 0, 2], [-1, 0, 1]]

def sobelKy : Grid ℚ :=
  [[-1, -2, -1], [0, 0, 0], [1, 2, 1]]

/-- Models the gradient field of `gradientBased`: Sobel x/y derivatives and
`cv::magnitude`; the Euclidean magnitude `sqrt(gx² + gy²)` is irrational and
is modelled by the squared magnitude `gx² + gy²`, a monotone surrogate that
the subsequent min-max normalization maps into `[0,1]` as well.  No claim
depends on the numeric values of this field. -/
def sobelMagSq (g : Grid ℚ) (rows cols : Nat) : Grid ℚ :=
  (List.range rows).map (fun y =>
    (List.range cols).map (fun x =>
      conv3 g rows cols sobelKx y x ^ 2 + conv3 g rows cols sobelKy y x ^ 2))

/-- `gradientBased(input, params)`: Floyd-Steinberg kernel with the per-pixel
strength `strength * (0.5 + 0.5 * gradient)`, gradient precomputed over the
whole image; no serpentine. -/
def gradientBased (input : Image) (params : Parameters) : Option Image :=
  let gray := input.map (List.map (fun p => (cvtGrayByte p : ℚ)))
  let gradient := minmaxNormalize (sobelMagSq gray (gridRows input) (gridCols input))
  (paletteQuant (getPalette params.paletteMode)).map (fun quant =>
    (scanRows
      (edStep quant fsOffsets fsWeights
        (fun x y => params.strength * (1 / 2 + gget gradient y x 0 * (1 / 2))) false input)
      (gridRows input) (gridCols input) (fun _ => false) (edInit input)).1)

/-- The per-pixel body of `ostromoukhov`: the Floyd-Steinberg offsets with
weights interpolated by the intensity of the clamped error-adjusted pixel,
normalized by their sum. -/
def ostroStep (quant : Pix → Pix) (strength : ℚ) (input : Image) (x y : Nat)
    (s : EDState) : Pix × EDState :=
  let oldPixel := gget input y x ⟨0, 0, 0⟩
  let errorVal := gget s.errs y x Vec3.zero
  let newPixelF := clamp3 ((pixToVec oldPixel).add errorVal)
  let newPixel := vecToPix newPixelF
  let quantized := quant newPixel
  let intensity := (newPixelF.x0 + newPixelF.x1 + newPixelF.x2) / (3 * 255)
  let w1 := 7 * (1 - intensity) + 3 * intensity
  let w2 := 3 * (1 - intensity) + 7 * intensity
  let w3 : ℚ := 5
  let w4 : ℚ := 1
  let wsum := w1 + w2 + w3 + w4
  let weights := [w1 / wsum, w2 / wsum, w3 / wsum, w4 / wsum]
  let quantError := newPixelF.sub (pixToVec quantized)
  (quantized,
   ⟨diffuseError s.errs x y quantError fsOffsets weights strength false,
    s.gen + l1 quantError,
    s.inj + injectedL1 s.errs x y quantError fsOffsets weights strength false⟩)

def ostromoukhov (input : Image) (params : Parameters) : Option Image :=
  (paletteQuant (getPalette params.paletteMode)).map (fun quant =>
    (scanRows (ostroStep quant params.strength input)
      (gridRows input) (gridCols input) (fun _ => false) (edInit input)).1)

/-- The per-pixel body of `variableErrorDiffusion`: Floyd-Steinberg weights
all scaled by one fresh seeded uniform draw from `[0.7, 1.3]` per pixel. -/
def varStep (quant : Pix → Pix) (strength : ℚ) (input : Image) (x y : Nat)
    (s : EDState × MTState) : Pix × (EDState × MTState) :=
  let oldPixel := gget input y x ⟨0, 0, 0⟩
  let errorVal := gget s.1.errs y x Vec3.zero
  let newPixelF := clamp3 ((pixToVec oldPixel).add errorVal)
  let newPixel := vecToPix newPixelF
  let quantized := quant newPixel
  let quantError := newPixelF.sub (pixToVec quantized)
  let draw := mtDrawRange (7 / 10) (13 / 10) s.2
  let weights := [7 / 16 * draw.1, 3 / 16 * draw.1, 5 / 16 * draw.1, 1 / 16 * draw.1]
  (quantized,
   (⟨diffuseError s.1.errs x y quantError fsOffsets weights strength false,
     s.1.gen + l1 quantError,
     s.1.inj + injectedL1 s.1.errs x y quantError fsOffsets weights strength false⟩,
    draw.2))

def variableErrorDiffusion (input : Image) (params : Parameters) : Option Image :=
  (paletteQuant (getPalette params.paletteMode)).map (fun quant =>
    (scanRows (varStep quant params.strength input)
      (gridRows input) (gridCols input) (fun _ => false)
      (edInit input, mtInit params.seed)).1)

/-- The fixed 8×8 class matrix of `dotDiffusion`, copied verbatim from the
source (including its repeated values and the lone 61). -/
def classMatrix : Grid ℤ :=
  [[39, 23, 15, 31, 38, 22, 14, 30],
   [24, 7, 1, 9, 25, 8, 2, 10],
   [16, 3, 47, 43, 17, 4, 48, 44],
   [32, 11, 41, 27, 33, 12, 42, 28],
   [37, 21, 13, 29, 40, 26, 18, 34],
   [26, 6, 0, 8, 27, 5, 61, 13],
   [19, 2, 46, 42, 20, 1, 49, 45],
   [35, 10, 40, 26, 36, 9, 43, 25]]

/-- The per-pixel body of `dotDiffusion`: the class value perturbs the
threshold at the current pixel; the error grid is read (it stays all zero —
the source never writes it) and no error is distributed. -/
def dotStep (quant : Pix → Pix) (strength : ℚ) (input : Image) (x y : Nat)
    (errors : Grid Vec3) : Pix × Grid Vec3 :=
  let classVal := gget classMatrix (y % 8) (x % 8) 0
  let threshold := (classVal : ℚ) / 64
  let oldPixel := gget input y x ⟨0, 0, 0⟩
  let errorVal := gget errors y x Vec3.zero
  let base := (pixToVec oldPixel).add errorVal
  let newPixelF := clamp3 (base.add ((const3 (threshold * 128 - 64)).smul strength))
  (quant (vecToPix newPixelF), errors)

def dotDiffusion (input : Image) (params : Parameters) : Option Image :=
  (paletteQuant (getPalette params.paletteMode)).map (fun quant =>
    (scanRows (dotStep quant params.strength input)
      (gridRows input) (gridCols input) (fun _ => false)
      (mkGrid (gridRows input) (gridCols input) Vec3.zero)).1)

/-- The per-pixel body of `riemersma`: a single carried error vector, applied
`strength`-scaled, decayed by 0.8 after each pixel; serpentine raster scan. -/
def riemersmaStep (quant : Pix → Pix) (strength : ℚ) (input : Image) (x y : Nat)
    (err : Vec3) : Pix × Vec3 :=
  let pixel := gget input y x ⟨0, 0, 0⟩
  let pixelF := clamp3 ((pixToVec pixel).add (err.smul strength))
  let pixelB := vecToPix pixelF
  let quantized := quant pixelB
  (quantized, (pixelF.sub (pixToVec quantized)).smul (8 / 10))

def riemersma (input : Image) (params : Parameters) : Option Image :=
  (paletteQuant (getPalette params.paletteMode)).map (fun quant =>
    (scanRows (riemersmaStep quant params.strength input)
      (gridRows input) (gridCols input) (fun y => y % 2 = 1) Vec3.zero).1)

/-- The shared per-pixel threshold adjustment of the ordered/noise/pattern
algorithms: add `(threshold * 255 - 127.5) * strength` to every channel,
clamp, byte-truncate, quantize. -/
def thresholdAdjust (quant : Pix → Pix) (strength th : ℚ) (pixel : Pix) : Pix :=
  let pixelF := pixToVec pixel
  let adjusted := clamp3 (pixelF.add ((const3 (th * 255 - 255 / 2)).smul strength))
  quant (vecToPix adjusted)

/-- `orderedDither(input, params)`: Bayer matrix of `params.bayerSize`, tiled
by modulo; `none` models the non-terminating recursion of
`generateBayerMatrix` for a size whose halving never reaches 2. -/
def orderedDither (input : Image) (params : Parameters) : Option Image :=
  let size := params.bayerSize
  match generateBayerMatrix size with
  | none => none
  | some bayerMatrix =>
      (paletteQuant (getPalette params.paletteMode)).map (fun quant =>
        (scanRows
          (fun x y _ =>
            (thresholdAdjust quant params.strength
              (gget bayerMatrix (y % size) (x % size) 0)
              (gget input y x ⟨0, 0, 0⟩), ()))
          (gridRows input) (gridCols input) (fun _ => false) ()).1)

/-- `blueNoiseDither(input, params)`: the 256×256 blue-noise texture tiled by
modulo. -/
def blueNoiseDither (input : Image) (params : Parameters) : Option Image :=
  let blueNoise := generateBlueNoiseTexture 256 params.seed
  (paletteQuant (getPalette params.paletteMode)).map (fun quant =>
    (scanRows
      (fun x y _ =>
        (thresholdAdjust quant params.strength
          (gget blueNoise (y % 256) (x % 256) 0)
          (gget input y x ⟨0, 0, 0⟩), ()))
      (gridRows input) (gridCols input) (fun _ => false) ()).1)

/-- `whiteNoiseDither(input, params)`: a fresh seeded uniform draw per pixel
in raster order. -/
def whiteNoiseDither (input : Image) (params : Parameters) : Option Image :=
  (paletteQuant (getPalette params.paletteMode)).map (fun quant =>
    (scanRows
      (fun x y (rng : MTState) =>
        let d := mtDraw01 rng
        (thresholdAdjust quant params.strength d.1 (gget input y x ⟨0, 0, 0⟩), d.2))
      (gridRows input) (gridCols input) (fun _ => false) (mtInit params.seed)).1)

/-- `randomDither` simply forwards to `whiteNoiseDither`. -/
def randomDither (input : Image) (params : Parameters) : Option Image :=
  whiteNoiseDither input params

/-- The fixed 4×4 threshold pattern of `patternDither` (all entries are exact
dyadic floats). -/
def pattern4 : Grid ℚ :=
  [[0, 1 / 2, 1 / 8, 5 / 8],
   [3 / 4, 1 / 4, 7 / 8, 3 / 8],
   [3 / 16, 11 / 16, 1 / 16, 9 / 16],
   [15 / 16, 7 / 16, 13 / 16, 5 / 16]]

def patternDither (input : Image) (params : Parameters) : Option Image :=
  (paletteQuant (getPalette params.paletteMode)).map (fun quant =>
    (scanRows
      (fun x y _ =>
        (thresholdAdjust quant params.strength
          (gget pattern4 (y % 4) (x % 4) 0)
          (gget input y x ⟨0, 0, 0⟩), ()))
      (gridRows input) (gridCols input) (fun _ => false) ()).1)

/-- `ditherImage(input, params)`: preprocess, then dispatch on the algorithm.
The C++ `switch` has a `default: return floydSteinberg(...)` arm, but the
`Algorithm` enum is closed and every value has an explicit case. -/
def ditherImage (input : Image) (params : Parameters) : Option Image :=
  let preprocessed := preprocessImage input params
  match params.algorithm with
  | .FLOYD_STEINBERG => floydSteinberg preprocessed params
  | .ATKINSON => atkinson preprocessed params
  | .JARVIS_JUDICE_NINKE => jarvisJudiceNinke preprocessed params
  | .STUCKI => stucki preprocessed params
  | .BURKES => burkes preprocessed params
  | .SIERRA => sierra preprocessed params
  | .SIERRA_TWO_ROW => sierraTwo preprocessed params
  | .SIERRA_LITE => sierraLite preprocessed params
  | .ORDERED_BAYER_2X2 => orderedDither preprocessed params
  | .ORDERED_BAYER_4X4 => orderedDither preprocessed params
  | .ORDERED_BAYER_8X8 => orderedDither preprocessed params
  | .ORDERED_BAYER_16X16 => orderedDither preprocessed params
  | .BLUE_NOISE => blueNoiseDither preprocessed params
  | .WHITE_NOISE => whiteNoiseDither preprocessed params
  | .RANDOM_DITHER => randomDither preprocessed params
  | .PATTERN_DITHER => patternDither preprocessed params
  | .DOT_DIFFUSION => dotDiffusion preprocessed params
  | .RIEMERSMA => riemersma preprocessed params
  | .GRADIENT_BASED => gradientBased preprocessed params
  | .VARIABLE_ERROR_DIFFUSION => variableErrorDiffusion preprocessed params
  | .OSTROMOUKHOV => ostromoukhov preprocessed params
  | .FAN => fan preprocessed params
  | .SHIAU_FAN => shiauFan preprocessed params
  | .STEVENPIGEON => stevenPigeon preprocessed params

/-! Concrete fixtures used by the witness and counterexample theorems. -/

/-- A 1×1 mid-gray image. -/
def imgGray1 : Image :=
  [[⟨128, 128, 128⟩]]

/-- A 1×1 black image. -/
def imgBlack1 : Image :=
  [[⟨0, 0, 0⟩]]

/-- A 1×2 gray image whose second pixel sits near the monochrome threshold. -/
def imgRow2 : Image :=
  [[⟨200, 200, 200⟩, ⟨120, 120, 120⟩]]

/-- A 3×3 black image with a single mid-gray center pixel: all of the center's
quantization error targets in-bounds neighbours. -/
def imgCenter3 : Image :=
  [[⟨0, 0, 0⟩, ⟨0, 0, 0⟩, ⟨0, 0, 0⟩],
   [⟨0, 0, 0⟩, ⟨128, 128, 128⟩, ⟨0, 0, 0⟩],
   [⟨0, 0, 0⟩, ⟨0, 0, 0⟩, ⟨0, 0, 0⟩]]

/-- Default parameters (Floyd-Steinberg, monochrome). -/
def pDefault : Parameters :=
  {}

/-- Custom palette mode with an empty `customPalette` list (the default). -/
def pCustomEmpty : Parameters :=
  { algorithm := .FLOYD_STEINBERG, paletteMode := .CUSTOM }

/-- Preprocessing parameters with negative brightness and gamma 2. -/
def pGammaNegBase : Parameters :=
  { brightness := -1 / 2, gamma := 2 }

/-- Floyd-Steinberg at the top of the documented strength range. -/
def pStrength2 : Parameters :=
  { strength := 2, serpentine := 0 }

/-- Floyd-Steinberg with an out-of-domain negative strength. -/
def pStrengthNeg : Parameters :=
  { strength := -1, serpentine := 0 }

/-- Floyd-Steinberg with strength 0 (the nearest valid value to -1). -/
def pStrengthZero : Parameters :=
  { strength := 0, serpentine := 0 }

/-- An ordered-dither call with a non-power-of-two `bayerSize`. -/
def pBayer3 : Parameters :=
  { algorithm := .ORDERED_BAYER_8X8, bayerSize := 3 }

/-- The 4×4 matrix the source's `generateBayerMatrix(4)` actually produces
(sixteenths; note the duplicated values). -/
def bayer4Actual : Grid ℚ :=
  [[0, 2 / 16, 2 / 16, 4 / 16],
   [3 / 16, 1 / 16, 5 / 16, 3 / 16],
   [3 / 16, 5 / 16, 1 / 16, 3 / 16],
   [6 / 16, 4 / 16, 4 / 16, 2 / 16]]

/-! Helper lemmas. -/

/-- The scan of `findClosest1` only ever holds palette members in its
accumulator. -/
theorem findClosest1_mem (color first : Pix) (rest : List Pix) :
    findClosest1 color first rest ∈ first :: rest := by
  have aux :
      ∀ (l : List Pix) (acc : Pix × ℤ),
        acc.1 ∈ first :: rest → (∀ p ∈ l, p ∈ first :: rest) →
          (l.foldl
            (fun acc p => if colorDist color p < acc.2 then (p, colorDist color p) else acc)
            acc).1 ∈ first :: rest := by
    intro l
    induction l with
    | nil => intro acc hacc _; exact hacc
    | cons p ps ih =>
        intro acc hacc hl
        simp only [List.foldl_cons]
        refine ih _ ?_ ?_
        · by_cases h : colorDist color p < acc.2
          · simpa [h] using hl p (by simp)
          · simpa [h] using hacc
        · intro q hq; exact hl q (by simp [hq])
  exact aux (first :: rest) (first, fltMaxDist) (by simp) (fun p hp => hp)

/-- A quantizer produced by `paletteQuant` maps every color into the palette. -/
theorem paletteQuant_mem {palette : List Pix} {q : Pix → Pix}
    (h : paletteQuant palette = some q) : ∀ c, q c ∈ palette := by
  cases palette with
  | nil => simp [paletteQuant] at h
  | cons first rest =>
      simp only [paletteQuant, Option.some.injEq] at h
      intro c
      rw [← h]
      exact findClosest1_mem c first rest

/-- Every palette mode yields a non-empty palette (claim C9's core fact). -/
theorem getPalette_ne_nil (mode : PaletteMode) : getPalette mode ≠ [] := by
  cases mode <;> decide

/-- `findClosestColor` succeeds on every non-empty palette. -/
theorem findClosestColor_isSome {palette : List Pix} (h : palette ≠ []) (c : Pix) :
    (findClosestColor c palette).isSome := by
  cases palette with
  | nil => exact absurd rfl h
  | cons first rest => rfl

/-- Pixels collected by a `foldAppend` pass all satisfy `S` when the seed
pixels do and every step emits such a pixel. -/
theorem foldAppend_mem {γ α σ : Type} {g : γ → σ → α × σ} {S : α → Prop}
    (hg : ∀ c s, S (g c s).1) :
    ∀ (l : List γ) (a : List α × σ), (∀ p ∈ a.1, S p) →
      ∀ p ∈ (foldAppend g l a).1, S p := by
  intro l
  induction l with
  | nil => intro a ha p hp; exact ha p hp
  | cons c cs ih =>
      intro a ha p hp
      refine ih _ ?_ p hp
      intro q hq
      rcases List.mem_append.1 hq with h | h
      · exact ha q h
      · rcases List.mem_singleton.1 h with rfl
        exact hg c a.2

/-- `foldAppend` preserves any invariant of the threaded state. -/
theorem foldAppend_state {γ α σ : Type} {g : γ → σ → α × σ} {P : σ → Prop}
    (hg : ∀ c s, P s → P (g c s).2) :
    ∀ (l : List γ) (a : List α × σ), P a.2 → P (foldAppend g l a).2 := by
  intro l
  induction l with
  | nil => intro a ha; exact ha
  | cons c cs ih => intro a ha; exact ih _ (hg c a.2 ha)

/-- Every pixel a `scanRow` emits satisfies `S` when every step does. -/
theorem scanRow_mem {σ : Type} {step : Nat → Nat → σ → Pix × σ} {S : Pix → Prop}
    (hstep : ∀ x y s, S (step x y s).1)
    (cols : Nat) (rev : Bool) (y : Nat) (s : σ) :
    ∀ pix ∈ (scanRow step cols rev y s).1, S pix := by
  have hin :
      ∀ xs, ∀ pix ∈ (foldAppend (fun x st => step x y st) xs ([], s)).1, S pix :=
    fun xs => foldAppend_mem (fun c st => hstep c y st) xs ([], s) (by simp)
  cases rev with
  | false => simpa [scanRow] using hin (List.range cols)
  | true =>
      intro pix hp
      rw [scanRow] at hp
      simp only [if_true] at hp
      exact hin (List.range cols).reverse pix (List.mem_reverse.1 hp)

/-- Every pixel of a `scanRows` image satisfies `S` when every step emits a
pixel satisfying `S`. -/
theorem scanRows_mem {σ : Type} {step : Nat → Nat → σ → Pix × σ} {S : Pix → Prop}
    (hstep : ∀ x y s, S (step x y s).1)
    (rows cols : Nat) (rowRev : Nat → Bool) (s0 : σ) :
    ∀ row ∈ (scanRows step rows cols rowRev s0).1, ∀ pix ∈ row, S pix := by
  exact foldAppend_mem
    (S := fun (row : List Pix) => ∀ pix ∈ row, S pix)
    (fun y s => scanRow_mem hstep cols (rowRev y) y s)
    (List.range rows) ([], s0) (by simp)

/-- `scanRow` preserves any invariant of the threaded state. -/
theorem scanRow_state {σ : Type} {step : Nat → Nat → σ → Pix × σ} {P : σ → Prop}
    (hstep : ∀ x y s, P s → P (step x y s).2)
    (cols : Nat) (rev : Bool) (y : Nat) {s : σ} (hs : P s) :
    P (scanRow step cols rev y s).2 := by
  cases rev with
  | false =>
      simpa [scanRow] using
        foldAppend_state (fun x st hst => hstep x y st hst) (List.range cols) ([], s) hs
  | true =>
      simpa [scanRow] using
        foldAppend_state (fun x st hst => hstep x y st hst) (List.range cols).reverse ([], s) hs

/-- `scanRows` preserves any invariant of the threaded state. -/
theorem scanRows_state {σ : Type} (step : Nat → Nat → σ → Pix × σ) {P : σ → Prop}
    (hstep : ∀ x y s, P s → P (step x y s).2)
    (rows cols : Nat) (rowRev : Nat → Bool) {s0 : σ} (h0 : P s0) :
    P (scanRows step rows cols rowRev s0).2 := by
  exact foldAppend_state
    (fun y s hs => scanRow_state hstep cols (rowRev y) y hs)
    (List.range rows) ([], s0) h0

/-- An algorithm whose body is `(paletteQuant _).map _` never fails when the
palette is non-empty. -/
theorem paletteQuant_isSome {palette : List Pix} (h : palette ≠ []) :
    (paletteQuant palette).isSome := by
  cases palette with
  | nil => exact absurd rfl h
  | cons first rest => rfl

/-- Claim C1, counterexample: a dithering call with `paletteMode = Custom` and
an empty custom palette does NOT fail — on a 1×1 mid-gray image with
Floyd-Steinberg it completes and produces the all-white output (quantized
against the monochrome fallback palette), contradicting "the call fails with
an InvalidPalette error, aborts, and no output image is produced". -/
theorem claim_C1_counterexample :
    ditherImage imgGray1 pCustomEmpty = some [[⟨255, 255, 255⟩]] := by
  decide

/-- Claim C1, amended: the engine accepts no custom palette at all —
`getPalette` takes only the mode and maps `CUSTOM` (like `EGA` and `VGA`) to
the 2-entry black/white monochrome fallback, and a Floyd-Steinberg dither call
in Custom mode always completes with an output image. -/
theorem claim_C1_amended (input : Image) (p : Parameters)
    (hmode : p.paletteMode = .CUSTOM) (halg : p.algorithm = .FLOYD_STEINBERG) :
    getPalette p.paletteMode = [⟨0, 0, 0⟩, ⟨255, 255, 255⟩] ∧
      (ditherImage input p).isSome := by
  constructor
  · rw [hmode]; decide
  · have hne : getPalette p.paletteMode ≠ [] := getPalette_ne_nil _
    rw [ditherImage, halg]
    rcases hq : paletteQuant (getPalette p.paletteMode) with _ | q
    · have hs := paletteQuant_isSome hne
      rw [hq] at hs
      exact absurd hs (by simp)
    · simp [floydSteinberg, fsScanFull, hq]

/-- Witness for `claim_C1_amended` at the concrete fixture. -/
theorem claim_C1_amended_witness :
    getPalette pCustomEmpty.paletteMode = [⟨0, 0, 0⟩, ⟨255, 255, 255⟩] ∧
      (ditherImage imgGray1 pCustomEmpty).isSome :=
  claim_C1_amended imgGray1 pCustomEmpty rfl rfl

/-- Claim C4, code evaluation at the failing input: `generateBayerMatrix(2)`
is the canonical `[[0, 1/2], [3/4, 1/4]]`, but `generateBayerMatrix(4)`
produces `[[0,2,2,4],[3,1,5,3],[3,5,1,3],[6,4,4,2]]/16` — the recursion
multiplies the already-normalized half-size matrix by 4 instead of
denormalizing it, so the values are NOT the permutation
`{0, 1/16, …, 15/16}` the spec asserts (they top out at `6/16` and repeat). -/
theorem claim_C4_bayer_eval :
    generateBayerMatrix 2 = some [[0, 1 / 2], [3 / 4, 1 / 4]] ∧
      generateBayerMatrix 4 = some bayer4Actual ∧
      ¬ bayer4Actual.flatten.Perm ((List.range 16).map (fun k => (k : ℚ) / 16)) := by
  refine ⟨by decide, by decide, by decide⟩

/-- Claim C5, counterexample: the Grayscale-8 palette's entry 2 is 72 — the
source computes `i * 255 / (N-1)` in truncating integer division — whereas the
claim's `round(2 * 255 / 7)` is 73. -/
theorem claim_C5_counterexample :
    (getPalette .GRAYSCALE_8).get? 2 = some ⟨72, 72, 72⟩ ∧
      roundHalfEven ((2 * 255 : ℚ) / 7) = 73 ∧ (72 : ℕ) ≠ 73 := by
  refine ⟨by decide, by decide, by decide⟩

/-- Claim C5, amended: for N ∈ {4, 8, 16} the Grayscale-N palette has exactly
N gray entries with channel value `⌊i * 255 / (N-1)⌋` (truncating integer
division, not rounding); Grayscale-4 is still exactly 0, 85, 170, 255. -/
theorem claim_C5_amended :
    getPalette .GRAYSCALE_4 =
        [⟨0, 0, 0⟩, ⟨85, 85, 85⟩, ⟨170, 170, 170⟩, ⟨255, 255, 255⟩] ∧
      getPalette .GRAYSCALE_8 =
        [⟨0, 0, 0⟩, ⟨36, 36, 36⟩, ⟨72, 72, 72⟩, ⟨109, 109, 109⟩,
         ⟨145, 145, 145⟩, ⟨182, 182, 182⟩, ⟨218, 218, 218⟩, ⟨255, 255, 255⟩] ∧
      getPalette .GRAYSCALE_16 =
        (List.range 16).map (fun i => ⟨i * 17, i * 17, i * 17⟩) ∧
      ∀ mode n, (mode = PaletteMode.GRAYSCALE_4 ∧ n = 4) ∨
          (mode = PaletteMode.GRAYSCALE_8 ∧ n = 8) ∨
          (mode = PaletteMode.GRAYSCALE_16 ∧ n = 16) →
        (getPalette mode).length = n ∧
          getPalette mode = (List.range n).map (fun i => grayEntry i (n - 1)) := by
  refine ⟨by decide, by decide, by decide, ?_⟩
  rintro mode n (⟨rfl, rfl⟩ | ⟨rfl, rfl⟩ | ⟨rfl, rfl⟩) <;> exact ⟨by decide, by decide⟩

/-- Claim C6, counterexample: with the out-of-domain `bayerSize = 3` the
ordered-dither call does not complete at all (`generateBayerMatrix` recurses
without reaching its base case, modelled as `none`), contradicting "the engine
detects the value and clamps it to the nearest valid value … the dither call
still completes". -/
theorem claim_C6_counterexample :
    ditherImage imgGray1 pBayer3 = none := by
  decide

/-- Claim C6, amended: the engine performs no detection or clamping of
out-of-domain parameters.  A negative strength is used exactly as given — the
output differs from the output at the nearest valid strength 0 — and a
non-power-of-two `bayerSize` makes the ordered dither fail to terminate
instead of completing. -/
theorem claim_C6_amended :
    ditherImage imgRow2 pStrengthNeg =
        some [[⟨255, 255, 255⟩, ⟨255, 255, 255⟩]] ∧
      ditherImage imgRow2 pStrengthZero =
        some [[⟨255, 255, 255⟩, ⟨0, 0, 0⟩]] ∧
      ditherImage imgGray1 pBayer3 = none := by
  refine ⟨by decide, by decide, by decide⟩

/-- Claim C7, counterexample: with contrast 1, brightness −1/2, gamma 2 on a
black pixel, the value reaching the power step is −1/2 (negative — no clamp to
`≥ 0` happens first), and the pipeline's output (64, via `(−1/2)² = 1/4`)
differs from the clamp-first pipeline the claim describes (which yields 0). -/
theorem claim_C7_counterexample :
    (ppContrastBrightness pGammaNegBase (ppNormalize ⟨0, 0, 0⟩)).x0 = -1 / 2 ∧
      preprocessImage imgBlack1 pGammaNegBase = [[⟨64, 64, 64⟩]] ∧
      preprocessImageClampFirst imgBlack1 pGammaNegBase = [[⟨0, 0, 0⟩]] := by
  refine ⟨by decide, by decide, by decide⟩

/-- Claim C7, amended: no clamp precedes the gamma power — the
contrast/brightness output reaches `cv::pow` as-is, and it can be negative
(only) when the brightness is negative: whenever `contrast ≥ 0` and
`brightness ≥ 0`, every component reaching the power step is nonnegative. -/
theorem claim_C7_amended (params : Parameters) (p : Pix)
    (hc : 0 ≤ params.contrast) (hb : 0 ≤ params.brightness) :
    0 ≤ (ppContrastBrightness params (ppNormalize p)).x0 ∧
      0 ≤ (ppContrastBrightness params (ppNormalize p)).x1 ∧
      0 ≤ (ppContrastBrightness params (ppNormalize p)).x2 := by
  simp only [ppNormalize, ppContrastBrightness]
  refine ⟨?_, ?_, ?_⟩ <;>
    exact add_nonneg (mul_nonneg (by positivity) hc) hb

/-- Witness for `claim_C7_amended` at concrete inputs. -/
theorem claim_C7_amended_witness :
    0 ≤ pDefault.contrast ∧ 0 ≤ pDefault.brightness ∧
      (0 ≤ (ppContrastBrightness pDefault (ppNormalize ⟨128, 128, 128⟩)).x0 ∧
        0 ≤ (ppContrastBrightness pDefault (ppNormalize ⟨128, 128, 128⟩)).x1 ∧
        0 ≤ (ppContrastBrightness pDefault (ppNormalize ⟨128, 128, 128⟩)).x2) :=
  ⟨by decide, by decide,
    claim_C7_amended pDefault ⟨128, 128, 128⟩ (by decide) (by decide)⟩

/-- For a power-of-two size at least 2, the fuelled Bayer recursion succeeds,
and its value does not depend on the fuel once the fuel covers the recursion
depth. -/
theorem bayerAux_pow (k : Nat) (hk : 1 ≤ k) :
    ∃ m, ∀ fuel, k ≤ fuel → bayerAux fuel (2 ^ k) = some m := by
  induction k with
  | zero => omega
  | succ n ih =>
      rcases Nat.eq_or_lt_of_le hk with h1 | h1
      · refine ⟨[[0 / 4, 2 / 4], [3 / 4, 1 / 4]], ?_⟩
        intro fuel hfuel
        have hn : n = 0 := by omega
        subst hn
        cases fuel with
        | zero => omega
        | succ f => simp [bayerAux]
      · have hn : 1 ≤ n := by omega
        obtain ⟨m, hm⟩ := ih hn
        refine ⟨bayerDouble (2 ^ (n + 1)) m, ?_⟩
        intro fuel hfuel
        cases fuel with
        | zero => omega
        | succ f =>
            have hne : 2 ^ (n + 1) ≠ 2 := by
              have h4 : 4 ≤ 2 ^ (n + 1) := by
                calc (4 : Nat) = 2 ^ 2 := by norm_num
                _ ≤ 2 ^ (n + 1) := Nat.pow_le_pow_right (by norm_num) (by omega)
              omega
            have hhalf : 2 ^ (n + 1) / 2 = 2 ^ n := by
              rw [pow_succ]
              exact Nat.mul_div_cancel _ (by norm_num)
            rw [bayerAux, if_neg hne, hhalf, hm f (by omega)]

/-- Claim C10: `generateBayerMatrix` terminates for every size `2^k` (k ≥ 1):
the recursion halves the size until the base case 2, and the result is a pure
function of the size alone — the same matrix is produced at every sufficient
fuel. -/
theorem claim_C10_bayer_terminates (k : Nat) (hk : 1 ≤ k) :
    ∃ m, generateBayerMatrix (2 ^ k) = some m ∧
      ∀ fuel, k ≤ fuel → bayerAux fuel (2 ^ k) = some m := by
  obtain ⟨m, hm⟩ := bayerAux_pow k hk
  have hcov : k ≤ 2 ^ k + 1 := le_trans (le_of_lt (Nat.lt_two_pow k)) (Nat.le_succ _)
  exact ⟨m, hm _ hcov, hm⟩

/-- Witness for `claim_C10_bayer_terminates` at `k = 2`. -/
theorem claim_C10_witness :
    1 ≤ 2 ∧ ∃ m, generateBayerMatrix (2 ^ 2) = some m ∧
      ∀ fuel, 2 ≤ fuel → bayerAux fuel (2 ^ 2) = some m :=
  ⟨by decide, claim_C10_bayer_terminates 2 (by decide)⟩

/-- Claim C9: `getPalette` returns a non-empty list for every palette mode
(including `CUSTOM`, `EGA` and `VGA`, which all fall to the monochrome
default), so the unguarded `palette[0]` read inside `findClosestColor` is in
bounds for every palette the engine produces. -/
theorem claim_C9_palette_total (mode : PaletteMode) (color : Pix) :
    getPalette mode ≠ [] ∧ (findClosestColor color (getPalette mode)).isSome :=
  ⟨getPalette_ne_nil mode, findClosestColor_isSome (getPalette_ne_nil mode) color⟩

/-- Containment for the shared fixed-kernel error-diffusion runner: every
pixel of a successful run lies in the palette. -/
theorem runKernelED_mem {input : Image} {params : Parameters}
    {offsets : List (ℤ × ℤ)} {weights : List ℚ} {out : Image}
    (h : runKernelED input params offsets weights = some out) :
    ∀ row ∈ out, ∀ pix ∈ row, pix ∈ getPalette params.paletteMode := by
  rw [runKernelED] at h
  rcases hq : paletteQuant (getPalette params.paletteMode) with _ | q
  · rw [hq] at h
    exact Option.noConfusion h
  · rw [hq] at h
    simp only [Option.map_some', Option.some.injEq] at h
    subst h
    exact scanRows_mem (fun x y s => paletteQuant_mem hq _) _ _ _ _

/-- Containment for `floydSteinberg`. -/
theorem floydSteinberg_mem {input : Image} {params : Parameters} {out : Image}
    (h : floydSteinberg input params = some out) :
    ∀ row ∈ out, ∀ pix ∈ row, pix ∈ getPalette params.paletteMode := by
  rw [floydSteinberg, fsScanFull] at h
  rcases hq : paletteQuant (getPalette params.paletteMode) with _ | q
  · rw [hq] at h
    exact Option.noConfusion h
  · rw [hq] at h
    simp only [Option.map_some', Option.some.injEq] at h
    subst h
    exact scanRows_mem (fun x y s => paletteQuant_mem hq _) _ _ _ _

/-- Containment for `gradientBased`. -/
theorem gradientBased_mem {input : Image} {params : Parameters} {out : Image}
    (h : gradientBased input params = some out) :
    ∀ row ∈ out, ∀ pix ∈ row, pix ∈ getPalette params.paletteMode := by
  simp only [gradientBased] at h
  rcases hq : paletteQuant (getPalette params.paletteMode) with _ | q
  · rw [hq] at h
    exact Option.noConfusion h
  · rw [hq] at h
    simp only [Option.map_some', Option.some.injEq] at h
    subst h
    exact scanRows_mem (fun x y s => paletteQuant_mem hq _) _ _ _ _

/-- Containment for `ostromoukhov`. -/
theorem ostromoukhov_mem {input : Image} {params : Parameters} {out : Image}
    (h : ostromoukhov input params = some out) :
    ∀ row ∈ out, ∀ pix ∈ row, pix ∈ getPalette params.paletteMode := by
  rw [ostromoukhov] at h
  rcases hq : paletteQuant (getPalette params.paletteMode) with _ | q
  · rw [hq] at h
    exact Option.noConfusion h
  · rw [hq] at h
    simp only [Option.map_some', Option.some.injEq] at h
    subst h
    exact scanRows_mem (fun x y s => paletteQuant_mem hq _) _ _ _ _

/-- Containment for `variableErrorDiffusion`. -/
theorem variableErrorDiffusion_mem {input : Image} {params : Parameters} {out : Image}
    (h : variableErrorDiffusion input params = some out) :
    ∀ row ∈ out, ∀ pix ∈ row, pix ∈ getPalette params.paletteMode := by
  rw [variableErrorDiffusion] at h
  rcases hq : paletteQuant (getPalette params.paletteMode) with _ | q
  · rw [hq] at h
    exact Option.noConfusion h
  · rw [hq] at h
    simp only [Option.map_some', Option.some.injEq] at h
    subst h
    exact scanRows_mem (fun x y s => paletteQuant_mem hq _) _ _ _ _

/-- Containment for `dotDiffusion`. -/
theorem dotDiffusion_mem {input : Image} {params : Parameters} {out : Image}
    (h : dotDiffusion input params = some out) :
    ∀ row ∈ out, ∀ pix ∈ row, pix ∈ getPalette params.paletteMode := by
  rw [dotDiffusion] at h
  rcases hq : paletteQuant (getPalette params.paletteMode) with _ | q
  · rw [hq] at h
    exact Option.noConfusion h
  · rw [hq] at h
    simp only [Option.map_some', Option.some.injEq] at h
    subst h
    exact scanRows_mem (fun x y s => paletteQuant_mem hq _) _ _ _ _

/-- Containment for `riemersma`. -/
theorem riemersma_mem {input : Image} {params : Parameters} {out : Image}
    (h : riemersma input params = some out) :
    ∀ row ∈ out, ∀ pix ∈ row, pix ∈ getPalette params.paletteMode := by
  rw [riemersma] at h
  rcases hq : paletteQuant (getPalette params.paletteMode) with _ | q
  · rw [hq] at h
    exact Option.noConfusion h
  · rw [hq] at h
    simp only [Option.map_some', Option.some.injEq] at h
    subst h
    exact scanRows_mem (fun x y s => paletteQuant_mem hq _) _ _ _ _

/-- Containment for `orderedDither`. -/
theorem orderedDither_mem {input : Image} {params : Parameters} {out : Image}
    (h : orderedDither input params = some out) :
    ∀ row ∈ out, ∀ pix ∈ row, pix ∈ getPalette params.paletteMode := by
  simp only [orderedDither] at h
  rcases hb : generateBayerMatrix params.bayerSize with _ | M
  · rw [hb] at h
    exact Option.noConfusion h
  · rw [hb] at h
    dsimp only at h
    rcases hq : paletteQuant (getPalette params.paletteMode) with _ | q
    · rw [hq] at h
      exact Option.noConfusion h
    · rw [hq] at h
      simp only [Option.map_some', Option.some.injEq] at h
      subst h
      exact scanRows_mem (fun x y s => paletteQuant_mem hq _) _ _ _ _

/-- Containment for `blueNoiseDither`. -/
theorem blueNoiseDither_mem {input : Image} {params : Parameters} {out : Image}
    (h : blueNoiseDither input params = some out) :
    ∀ row ∈ out, ∀ pix ∈ row, pix ∈ getPalette params.paletteMode := by
  simp only [blueNoiseDither] at h
  rcases hq : paletteQuant (getPalette params.paletteMode) with _ | q
  · rw [hq] at h
    exact Option.noConfusion h
  · rw [hq] at h
    simp only [Option.map_some', Option.some.injEq] at h
    subst h
    exact scanRows_mem (fun x y s => paletteQuant_mem hq _) _ _ _ _

/-- Containment for `whiteNoiseDither` (and hence `randomDither`). -/
theorem whiteNoiseDither_mem {input : Image} {params : Parameters} {out : Image}
    (h : whiteNoiseDither input params = some out) :
    ∀ row ∈ out, ∀ pix ∈ row, pix ∈ getPalette params.paletteMode := by
  rw [whiteNoiseDither] at h
  rcases hq : paletteQuant (getPalette params.paletteMode) with _ | q
  · rw [hq] at h
    exact Option.noConfusion h
  · rw [hq] at h
    simp only [Option.map_some', Option.some.injEq] at h
    subst h
    exact scanRows_mem (fun x y s => paletteQuant_mem hq _) _ _ _ _

/-- Containment for `patternDither`. -/
theorem patternDither_mem {input : Image} {params : Parameters} {out : Image}
    (h : patternDither input params = some out) :
    ∀ row ∈ out, ∀ pix ∈ row, pix ∈ getPalette params.paletteMode := by
  rw [patternDither] at h
  rcases hq : paletteQuant (getPalette params.paletteMode) with _ | q
  · rw [hq] at h
    exact Option.noConfusion h
  · rw [hq] at h
    simp only [Option.map_some', Option.some.injEq] at h
    subst h
    exact scanRows_mem (fun x y s => paletteQuant_mem hq _) _ _ _ _

/-- Claim C2: for every input image, every algorithm and every palette mode,
every pixel of a successful `ditherImage` output is an exact member of the
palette `getPalette(params.paletteMode)` — every algorithm writes only
`findClosestColor` results into the output. -/
theorem claim_C2_palette_containment (input : Image) (params : Parameters)
    (out : Image) (h : ditherImage input params = some out) :
    ∀ row ∈ out, ∀ pix ∈ row, pix ∈ getPalette params.paletteMode := by
  rw [ditherImage] at h
  cases halg : params.algorithm <;> rw [halg] at h
  case FLOYD_STEINBERG => exact floydSteinberg_mem h
  case ATKINSON => exact runKernelED_mem h
  case JARVIS_JUDICE_NINKE => exact runKernelED_mem h
  case STUCKI => exact runKernelED_mem h
  case BURKES => exact runKernelED_mem h
  case SIERRA => exact runKernelED_mem h
  case SIERRA_TWO_ROW => exact runKernelED_mem h
  case SIERRA_LITE => exact runKernelED_mem h
  case ORDERED_BAYER_2X2 => exact orderedDither_mem h
  case ORDERED_BAYER_4X4 => exact orderedDither_mem h
  case ORDERED_BAYER_8X8 => exact orderedDither_mem h
  case ORDERED_BAYER_16X16 => exact orderedDither_mem h
  case BLUE_NOISE => exact blueNoiseDither_mem h
  case WHITE_NOISE => exact whiteNoiseDither_mem h
  case RANDOM_DITHER => exact whiteNoiseDither_mem h
  case PATTERN_DITHER => exact patternDither_mem h
  case DOT_DIFFUSION => exact dotDiffusion_mem h
  case RIEMERSMA => exact riemersma_mem h
  case GRADIENT_BASED => exact gradientBased_mem h
  case VARIABLE_ERROR_DIFFUSION => exact variableErrorDiffusion_mem h
  case OSTROMOUKHOV => exact ostromoukhov_mem h
  case FAN => exact runKernelED_mem h
  case SHIAU_FAN => exact runKernelED_mem h
  case STEVENPIGEON => exact runKernelED_mem h

/-- Witness for `claim_C2_palette_containment`: the 1×1 Floyd-Steinberg
monochrome run produces the white pixel, which the theorem places in the
monochrome palette. -/
theorem claim_C2_witness :
    Pix.mk 255 255 255 ∈ getPalette PaletteMode.MONOCHROME :=
  claim_C2_palette_containment imgGray1 pDefault [[⟨255, 255, 255⟩]]
    (by decide) [⟨255, 255, 255⟩] (by simp) ⟨255, 255, 255⟩ (by simp)

/-- Claim C3: `ditherImage` is a deterministic function of the image and the
parameter fields — two invocations with the same image and field-wise equal
parameters (in particular the same `seed` for the noise algorithms) return
identical outputs.  All randomness comes from engines constructed inside the
call from `params.seed`; no ambient state enters the computation. -/
theorem claim_C3_deterministic (input : Image) (p₁ p₂ : Parameters)
    (h1 : p₁.algorithm = p₂.algorithm) (h2 : p₁.paletteMode = p₂.paletteMode)
    (h3 : p₁.customPalette = p₂.customPalette) (h4 : p₁.strength = p₂.strength)
    (h5 : p₁.serpentine = p₂.serpentine) (h6 : p₁.colorization = p₂.colorization)
    (h7 : p₁.levels = p₂.levels) (h8 : p₁.gamma = p₂.gamma)
    (h9 : p₁.contrast = p₂.contrast) (h10 : p₁.brightness = p₂.brightness)
    (h11 : p₁.saturation = p₂.saturation) (h12 : p₁.bayerSize = p₂.bayerSize)
    (h13 : p₁.seed = p₂.seed) (h14 : p₁.useBlueNoise = p₂.useBlueNoise)
    (h15 : p₁.ditherScale = p₂.ditherScale) :
    ditherImage input p₁ = ditherImage input p₂ := by
  cases p₁
  cases p₂
  simp only at h1 h2 h3 h4 h5 h6 h7 h8 h9 h10 h11 h12 h13 h14 h15
  subst h1 h2 h3 h4 h5 h6 h7 h8 h9 h10 h11 h12 h13 h14 h15
  rfl

/-- Witness for `claim_C3_deterministic` at concrete inputs (seed-bearing
white-noise parameters, compared with themselves). -/
theorem claim_C3_witness :
    ditherImage imgGray1 pDefault = ditherImage imgGray1 pDefault :=
  claim_C3_deterministic imgGray1 pDefault pDefault rfl rfl rfl rfl rfl rfl rfl
    rfl rfl rfl rfl rfl rfl rfl rfl

/-- The L1 magnitude of a float vector is nonnegative. -/
theorem l1_nonneg (v : Vec3) : 0 ≤ l1 v := by
  have h0 : 0 ≤ |v.x0| := abs_nonneg _
  have h1 : 0 ≤ |v.x1| := abs_nonneg _
  have h2 : 0 ≤ |v.x2| := abs_nonneg _
  unfold l1
  linarith

/-- The L1 error a `diffuseError` call injects is bounded by
`strength * (sum of the weights) * l1 error`: the in-bounds targets receive
exactly their weight's share and out-of-bounds targets are dropped. -/
theorem injectedL1_le (errors : Grid Vec3) (x y : Nat) (e : Vec3) :
    ∀ (offsets : List (ℤ × ℤ)) (weights : List ℚ) (strength : ℚ) (serp : Bool),
      (∀ w ∈ weights, 0 ≤ w) → 0 ≤ strength →
      injectedL1 errors x y e offsets weights strength serp ≤
        strength * weights.sum * l1 e := by
  intro offsets
  induction offsets with
  | nil =>
      intro weights strength serp hw hs
      have hsum : 0 ≤ weights.sum := List.sum_nonneg hw
      have h0 : injectedL1 errors x y e [] weights strength serp = 0 := rfl
      rw [h0]
      exact mul_nonneg (mul_nonneg hs hsum) (l1_nonneg e)
  | cons o os ih =>
      rcases o with ⟨dx, dy⟩
      intro weights strength serp hw hs
      cases weights with
      | nil =>
          have h0 : injectedL1 errors x y e ((dx, dy) :: os) [] strength serp = 0 := rfl
          rw [h0]
          simp
      | cons w ws =>
          have hw0 : 0 ≤ w := hw w (by simp)
          have hws : ∀ u ∈ ws, 0 ≤ u := fun u hu => hw u (by simp [hu])
          have hrec := ih ws strength serp hws hs
          have hl1 := l1_nonneg e
          have hbound : ∀ (c : Prop) (inst : Decidable c),
              (if c then |w * strength| * l1 e else 0) ≤ w * strength * l1 e := by
            intro c inst
            by_cases hc : c
            · rw [if_pos hc, abs_of_nonneg (mul_nonneg hw0 hs)]
            · rw [if_neg hc]
              exact mul_nonneg (mul_nonneg hw0 hs) hl1
          simp only [injectedL1, List.sum_cons]
          exact le_trans (add_le_add (hbound _ _) hrec) (le_of_eq (by ring))

/-- One Floyd-Steinberg pixel step keeps the injected total bounded by
`strength` times the generated total: the step generates `l1 E` and injects at
most `strength * (7+3+5+1)/16 * l1 E = strength * l1 E`. -/
theorem edstate_step_bound {strength : ℚ} (hs : 0 ≤ strength) (st : EDState)
    (E : Vec3) (x y : Nat) (serp : Bool)
    (hP : st.inj ≤ strength * st.gen) :
    st.inj + injectedL1 st.errs x y E fsOffsets fsWeights strength serp ≤
      strength * (st.gen + l1 E) := by
  have hw : ∀ w ∈ fsWeights, 0 ≤ w := by
    intro w hwm
    simp only [fsWeights, List.mem_cons, List.not_mem_nil, or_false] at hwm
    rcases hwm with rfl | rfl | rfl | rfl <;> norm_num
  have hsum : fsWeights.sum = 1 := by
    simp only [fsWeights, List.sum_cons, List.sum_nil]
    norm_num
  have hinj := injectedL1_le st.errs x y E fsOffsets fsWeights strength serp hw hs
  rw [hsum, mul_one] at hinj
  linarith

/-- The Floyd-Steinberg pixel step preserves the `inj ≤ strength * gen`
invariant of the accumulator state. -/
theorem fsStep_preserves (q : Pix → Pix) (strength : ℚ) (hs : 0 ≤ strength)
    (serp : Bool) (input : Image) :
    ∀ x y st, st.inj ≤ strength * st.gen →
      ((edStep q fsOffsets fsWeights (fun _ _ => strength) serp input x y st).2).inj ≤
        strength * ((edStep q fsOffsets fsWeights (fun _ _ => strength) serp input x y st).2).gen := by
  intro x y st hP
  exact edstate_step_bound hs st _ x y _ hP

/-- The zero accumulator state satisfies the invariant. -/
theorem edInit_ok (input : Image) (strength : ℚ) :
    (edInit input).inj ≤ strength * (edInit input).gen := by
  simp [edInit]

/-- Claim C8, amended: across a whole Floyd-Steinberg run (any image, any
nonnegative strength), the total L1 error injected into the accumulator grid
is at most `strength` times the total L1 quantization error generated at the
pixels — each pixel's in-bounds kernel weights sum to at most 1, and
out-of-bounds shares are dropped. -/
theorem claim_C8_amended (input : Image) (params : Parameters)
    (hs : 0 ≤ params.strength) :
    fsTotalInjected input params ≤ params.strength * fsTotalGenerated input params := by
  rcases hscan : fsScanFull input params with _ | r
  · simp only [fsTotalInjected, fsTotalGenerated, hscan, Option.map_none',
      Option.getD_none, mul_zero, le_refl]
  · simp only [fsTotalInjected, fsTotalGenerated, hscan, Option.map_some',
      Option.getD_some]
    rw [fsScanFull] at hscan
    rcases hq : paletteQuant (getPalette params.paletteMode) with _ | q
    · rw [hq] at hscan
      exact Option.noConfusion hscan
    · rw [hq] at hscan
      simp only [Option.map_some', Option.some.injEq] at hscan
      subst hscan
      have h := scanRows_state
        (edStep q fsOffsets fsWeights (fun _ _ => params.strength) (serpOn params) input)
        (P := fun st => st.inj ≤ params.strength * st.gen)
        (fsStep_preserves q params.strength hs (serpOn params) input)
        (gridRows input) (gridCols input)
        (fun y => serpOn params && y % 2 = 1) (edInit_ok input params.strength)
      exact h

/-- Witness for `claim_C8_amended` at concrete inputs. -/
theorem claim_C8_amended_witness :
    0 ≤ pDefault.strength ∧
      fsTotalInjected imgGray1 pDefault ≤
        pDefault.strength * fsTotalGenerated imgGray1 pDefault :=
  ⟨by decide, claim_C8_amended imgGray1 pDefault (by decide)⟩

/-- Claim C8, counterexample: at strength 2 (inside the documented valid
range `[0, 2]`) the injected total can exceed the generated total — on the
3×3 image whose only nonzero pixel is the mid-gray center, the center's error
is distributed with in-bounds weight sum 1 scaled by strength 2, so 762 is
injected while only 381 is generated: error "energy" IS created for
`strength > 1`, contradicting the claim as stated. -/
theorem claim_C8_counterexample :
    fsTotalGenerated imgCenter3 pStrength2 = 381 ∧
      fsTotalInjected imgCenter3 pStrength2 = 762 ∧
      ¬ fsTotalInjected imgCenter3 pStrength2 ≤ fsTotalGenerated imgCenter3 pStrength2 := by
  refine ⟨by decide, by decide, by decide⟩

end Dithering
